import Mathlib

/-!
Shallow embedding of the codexline postinstall pipeline
(`scripts/install.js`-style core: target resolution, release URL
construction, retrying transfer with redirects, checksum manifest
parsing and verification, and atomic streaming install).

Conventions of the embedding:
* machine strings are Lean `String`s; byte contents are `List Nat`;
* the filesystem state relevant to one install is the pair of contents
  at the final output path and at the staging (`.tmp`) path;
* fallible/async code is modelled with `Except String`, errors carrying
  the exact message the source constructs;
* per-invocation behaviour of a retried task is determinized as a
  function from the 1-based attempt index to that attempt's outcome;
* JavaScript library functions the source calls (`String.prototype.trim`,
  `Number.parseInt`, `path.basename`, regex matching) are embedded at
  their ASCII behaviour, which is the domain the manifests and
  configuration values live in.
-/

namespace Codexline

/-- A resolved install target: the remote asset name and the local
output file name. Mirrors the objects returned by `resolveTarget`. -/
structure Target where
  assetName : String
  outputName : String
  deriving DecidableEq, Repr

/-- `resolveTarget(platform, arch)` from the source: the fixed five-entry
table mapping a (platform, architecture) pair to a `Target`, and `null`
(here `none`) for every other pair. -/
def resolveTarget (platform arch : String) : Option Target :=
  if platform = "win32" ∧ arch = "x64" then
    some ⟨"codexline-windows-x64.exe", "codexline.exe"⟩
  else if platform = "linux" ∧ arch = "x64" then
    some ⟨"codexline-linux-x64", "codexline"⟩
  else if platform = "linux" ∧ arch = "arm64" then
    some ⟨"codexline-linux-arm64", "codexline"⟩
  else if platform = "darwin" ∧ arch = "x64" then
    some ⟨"codexline-macos-x64", "codexline"⟩
  else if platform = "darwin" ∧ arch = "arm64" then
    some ⟨"codexline-macos-arm64", "codexline"⟩
  else
    none

/-- `trimTrailingSlash(value)`: `value.replace(/\/+$/, "")`, i.e. remove
every trailing `/` character. -/
def trimTrailingSlash (value : String) : String :=
  ⟨(value.data.reverse.dropWhile (fun c => c = '/')).reverse⟩

/-- `releaseBase`: `trimTrailingSlash(baseUrl) + version + "/"`. -/
def releaseBase (baseUrl version : String) : String :=
  trimTrailingSlash baseUrl ++ version ++ "/"

/-- `binaryUrl`: `releaseBase + target.assetName`. -/
def binaryUrl (baseUrl version : String) (t : Target) : String :=
  releaseBase baseUrl version ++ t.assetName

/-- The fixed manifest file name used for the checksum URL. -/
def manifestFileName : String := "codexline-checksums.txt"

/-- `checksumUrl`: `releaseBase + "codexline-checksums.txt"`. -/
def checksumUrl (baseUrl version : String) : String :=
  releaseBase baseUrl version ++ manifestFileName

/-- Filesystem state relevant to one install: content at the final
output path (`outPath`) and at the staging path (`outPath + ".tmp"`).
`none` means the path is absent. -/
structure FS where
  final : Option (List Nat)
  temp : Option (List Nat)
  deriving DecidableEq, Repr

/-- Outcome of consuming the response stream during
`pipeline(response, fs.createWriteStream(tempPath))`: either the full
byte content arrives, or the stream errors after some prefix of bytes
has been written to the staging path. -/
inductive StreamResult where
  | ok (bytes : List Nat)
  | err (partialBytes : List Nat) (msg : String)
  deriving DecidableEq, Repr

/-- `downloadBinary(url, dest, timeoutMs)`: remove any stale temp file,
then stream the response into the temp path; on success remove the
destination and rename temp over it; on any error remove the temp file
and rethrow. `stream` is `.error e` when `getResponse` itself fails,
and `.ok (.err p m)` when the stream errors after `p` bytes were
written to the staging path. -/
def downloadBinary (fs : FS) (stream : Except String StreamResult) :
    Except String Unit × FS :=
  let fs1 : FS := { fs with temp := none }
  match stream with
  | .error e => (.error e, { fs1 with temp := none })
  | .ok (.err _p m) =>
    let fsW : FS := { fs1 with temp := some _p }
    (.error m, { fsW with temp := none })
  | .ok (.ok bytes) =>
    let fsW : FS := { fs1 with temp := some bytes }
    let fsR : FS := { fsW with final := none }
    (.ok (), { fsR with final := some bytes, temp := none })

/-- ASCII whitespace, the fragment of JavaScript's `\s` character class
(and of `String.prototype.trim`) relevant to checksum manifests and
configuration strings. -/
def isJsWhitespace (c : Char) : Bool :=
  c = ' ' || c = '\t' || c = '\n' || c = '\r' || c = '\x0b' || c = '\x0c'

/-- `String.prototype.trim()` at its ASCII behaviour: drop whitespace
from both ends. -/
def jsTrim (s : String) : String :=
  ⟨((s.data.dropWhile isJsWhitespace).reverse.dropWhile isJsWhitespace).reverse⟩

/-- Splitting on the regex `/\r?\n/` as `content.split` does: a
separator is either `"\r\n"` or a bare `"\n"`. -/
def splitLinesAux : List Char → List Char → List (List Char)
  | [], acc => [acc.reverse]
  | '\r' :: '\n' :: rest, acc => acc.reverse :: splitLinesAux rest []
  | '\n' :: rest, acc => acc.reverse :: splitLinesAux rest []
  | c :: rest, acc => splitLinesAux rest (c :: acc)

/-- `content.split(/\r?\n/)`. -/
def splitLines (content : String) : List String :=
  (splitLinesAux content.data []).map fun cs => ⟨cs⟩

/-- The character class `[a-fA-F0-9]` of the manifest-line regex. -/
def isHexDigitChar (c : Char) : Bool :=
  ('0' ≤ c && c ≤ '9') || ('a' ≤ c && c ≤ 'f') || ('A' ≤ c && c ≤ 'F')

/-- Numeric value of a hex digit character (0 on non-hex input). Two
hex digit characters denote the same digit exactly when they are equal
up to ASCII case. -/
def hexVal (c : Char) : Nat :=
  if '0' ≤ c ∧ c ≤ '9' then c.toNat - 48
  else if 'a' ≤ c ∧ c ≤ 'f' then c.toNat - 87
  else if 'A' ≤ c ∧ c ≤ 'F' then c.toNat - 55
  else 0

/-- `String.prototype.toLowerCase()` at its ASCII behaviour
(`Char.toLower` maps `A`–`Z` to `a`–`z` and fixes everything else). -/
def strToLower (s : String) : String :=
  ⟨s.data.map Char.toLower⟩

/-- Node `path.basename` (posix flavour, `/`-separated): drop trailing
separators, then keep the part after the last remaining separator. -/
def basename (p : String) : String :=
  let cs := (p.data.reverse.dropWhile (fun c => c = '/'))
  ⟨(cs.takeWhile (fun c => c ≠ '/')).reverse⟩

/-- Matching `trimmed.match(/^([a-fA-F0-9]{64})\s+\*?(.+)$/)` on an
already-trimmed line, returning (group 1, group 2 after the source's
`match[2].trim()`). The regex requires exactly 64 hex characters, then
at least one whitespace character (taken greedily), then an optional
binary-mode `*` marker, then a nonempty remainder; `.` does not match a
carriage return, and on a trimmed line backtracking only matters when
the remainder is the single character `*`, which then becomes group 2. -/
def matchChecksumLine (s : String) : Option (String × String) :=
  let cs := s.data
  let digest := cs.take 64
  let rest := cs.drop 64
  if digest.length = 64 && digest.all isHexDigitChar then
    let w := rest.takeWhile isJsWhitespace
    let t := rest.dropWhile isJsWhitespace
    if w ≠ [] && t ≠ [] && t.all (fun c => c ≠ '\r') then
      let fname := if t.head? = some '*' && 2 ≤ t.length then t.drop 1 else t
      some (⟨digest⟩, jsTrim ⟨fname⟩)
    else none
  else none

/-- The line scan of `parseChecksum`: trim each line, skip blank and
non-matching lines, and return group 1 of the first matching line whose
file name equals the asset name exactly or whose basename does. -/
def parseChecksumLines (lines : List String) (assetName : String) : Option String :=
  match lines with
  | [] => none
  | line :: rest =>
    let trimmed := jsTrim line
    if trimmed = "" then parseChecksumLines rest assetName
    else
      match matchChecksumLine trimmed with
      | none => parseChecksumLines rest assetName
      | some (digest, fileName) =>
        if fileName = assetName || basename fileName = assetName then some digest
        else parseChecksumLines rest assetName

/-- `parseChecksum(content, assetName)` from the source. -/
def parseChecksum (content assetName : String) : Option String :=
  parseChecksumLines (splitLines content) assetName

/-- Observable side effects of `withRetry`: a task invocation (with its
1-based attempt index), a `console.warn`, or an `await sleep(ms)`. -/
inductive RetryEvent where
  | call (i : Nat)
  | warn (msg : String)
  | sleepMs (ms : Nat)
  deriving DecidableEq, Repr

/-- The aggregate error message thrown after the retry loop exhausts:
`` `${name} failed after ${attempts} attempts: ${lastError ? lastError.message : "unknown error"}` ``. -/
def retryFailMsg (name : String) (attempts : Nat) (last : Option String) : String :=
  name ++ " failed after " ++ toString attempts ++ " attempts: " ++
    (match last with | some m => m | none => "unknown error")

/-- The warning printed before a retry:
`` `codexline: ${name} failed (${i}/${attempts}), retrying: ${error.message}` ``. -/
def retryWarnMsg (name : String) (attempts i : Nat) (errMsg : String) : String :=
  "codexline: " ++ name ++ " failed (" ++ toString i ++ "/" ++ toString attempts ++
    "), retrying: " ++ errMsg

/-- The loop of `withRetry(name, attempts, task)`, threading a state `σ`
through the (possibly effectful) task, starting at attempt `i` with
`last` the last error seen so far. Returns the result, the final state,
and the trace of observable events. The delay slept before attempt
`i + 1` is `400 * i` milliseconds (`await sleep(400 * i)`). -/
def withRetryGo (name : String) (attempts : Nat)
    (task : Nat → σ → Except String α × σ) (i : Nat) (last : Option String)
    (s : σ) : Except String α × σ × List RetryEvent :=
  if attempts < i then
    (.error (retryFailMsg name attempts last), s, [])
  else
    match task i s with
    | (.ok v, s1) => (.ok v, s1, [.call i])
    | (.error e, s1) =>
      if i < attempts then
        let r := withRetryGo name attempts task (i + 1) (some e) s1
        (r.1, r.2.1,
          .call i :: .warn (retryWarnMsg name attempts i e) :: .sleepMs (400 * i) :: r.2.2)
      else
        (.error (retryFailMsg name attempts (some e)), s1, [.call i])
  termination_by attempts + 1 - i

/-- `withRetry(name, attempts, task)` for a stateless task, the
per-invocation outcomes determinized by attempt index. Returns the
result and the event trace. -/
def withRetry (name : String) (attempts : Nat) (task : Nat → Except String α) :
    Except String α × List RetryEvent :=
  let r := withRetryGo name attempts (fun i (_ : Unit) => (task i, ())) 1 none ()
  (r.1, r.2.2)

/-- Number of task invocations recorded in a retry trace. -/
def callCount (tr : List RetryEvent) : Nat :=
  tr.countP fun e => match e with | .call _ => true | _ => false

/-- The sleep durations recorded in a retry trace, in order. -/
def sleepList (tr : List RetryEvent) : List Nat :=
  tr.filterMap fun e => match e with | .sleepMs ms => some ms | _ => none

/-- An HTTP response as `getResponse` inspects it: a status code and an
optional `location` header. A resolved `.ok` response stands for the
live stream handed to the caller. -/
structure Resp where
  status : Nat
  location : Option String
  deriving DecidableEq, Repr

/-- JavaScript truthiness of `res.headers.location`: present and
nonempty. -/
def locationTruthy (loc : Option String) : Bool :=
  loc.getD "" ≠ ""

/-- `getResponse(url, timeoutMs, redirectsLeft)`. `net` gives the
response (or request/timeout error) for each URL; `resolveUrl loc url`
embeds `new URL(loc, url).toString()`, the WHATWG resolution of a
possibly relative location against the current URL. Returns the result
together with the list of URLs requested, in order. -/
def getResponse (net : String → Except String Resp)
    (resolveUrl : String → String → String) (url : String)
    (redirectsLeft : Nat) : Except String Resp × List String :=
  match net url with
  | .error e => (.error e, [url])
  | .ok res =>
    if 300 ≤ res.status ∧ res.status < 400 ∧ locationTruthy res.location then
      if redirectsLeft = 0 then
        (.error ("too many redirects while fetching " ++ url), [url])
      else
        let nextUrl := resolveUrl (res.location.getD "") url
        let r := getResponse net resolveUrl nextUrl (redirectsLeft - 1)
        (r.1, url :: r.2)
    else if res.status ≠ 200 then
      (.error ("HTTP " ++ toString res.status ++ " from " ++ url), [url])
    else
      (.ok res, [url])
  termination_by redirectsLeft

/-- `verifyBinaryChecksum({...})`: fetch the manifest text with
`withRetry("checksum download", retries, ...)`, parse it, hash the
installed file and compare digests case-insensitively. `checksumFetch`
determinizes the per-attempt outcome of `downloadText(checksumUrl)`;
`fileDigest` is the installed file's SHA-256 hex digest as
`sha256File(outputPath)` returns it. `.ok ws` carries the warnings the
lenient paths print. -/
def verifyBinaryChecksum (checksumFetch : Nat → Except String String)
    (retries : Nat) (assetName fileDigest : String) (requireChecksum : Bool) :
    Except String (List String) :=
  match (withRetry "checksum download" retries checksumFetch).1 with
  | .error e =>
    if requireChecksum then .error ("checksum file unavailable: " ++ e)
    else .ok ["codexline: checksum skipped (" ++ e ++ ")"]
  | .ok checksums =>
    match parseChecksum checksums assetName with
    | none =>
      if requireChecksum then .error ("checksum entry missing for " ++ assetName)
      else .ok ["codexline: checksum entry missing for " ++ assetName ++ ", skipped"]
    | some expected =>
      if strToLower fileDigest ≠ strToLower expected then
        .error ("checksum mismatch for " ++ assetName ++ ": expected " ++ expected ++
          ", got " ++ fileDigest)
      else .ok []

/-- Result of one whole run of the postinstall script: exit code, final
filesystem state, the message of `console.error("codexline: failed to
install binary", error.message)` if any, the warnings the verifier
printed, and whether `fs.chmodSync(outPath, 0o755)` ran. -/
structure InstallResult where
  exitCode : Nat
  fs : FS
  errMsg : Option String
  warnings : List String
  chmod755 : Bool
  deriving DecidableEq, Repr

/-- `install()` together with `install().catch(...)` (which removes
`outPath` and `outPath + ".tmp"`, reports, and exits 1). The binary
download runs under `withRetry("binary download", retries, ...)` with
the filesystem threaded through the attempts; the i-th attempt's stream
outcome is `binStreams i`. On success, `chmodSync(outPath, 0o755)` runs
exactly when the platform is not win32, and the process ends with
exit code 0. -/
def runInstall (fs0 : FS) (platformIsWin : Bool) (retries : Nat)
    (binStreams : Nat → Except String StreamResult) (doVerify : Bool)
    (checksumFetch : Nat → Except String String) (assetName fileDigest : String)
    (requireChecksum : Bool) : InstallResult :=
  let d := withRetryGo "binary download" retries
    (fun i fs => downloadBinary fs (binStreams i)) 1 none fs0
  match d.1 with
  | .error e => ⟨1, ⟨none, none⟩, some e, [], false⟩
  | .ok _ =>
    if doVerify then
      match verifyBinaryChecksum checksumFetch retries assetName fileDigest requireChecksum with
      | .error e => ⟨1, ⟨none, none⟩, some e, [], false⟩
      | .ok ws => ⟨0, d.2.1, none, ws, !platformIsWin⟩
    else ⟨0, d.2.1, none, [], !platformIsWin⟩

/-- How the script's prelude (before any network activity) disposes of
the run: exit 0 immediately on `CODEXLINE_SKIP_DOWNLOAD=1`; warn and
exit 0 when `resolveTarget` returns `null`; otherwise proceed into
`install()` with the resolved target. -/
inductive EntryAction where
  | skipExit
  | unsupportedWarnExit
  | proceed (t : Target)
  deriving DecidableEq, Repr

/-- Lines 17–25 of the source: the skip-download check, then target
resolution. -/
def entryDecision (skipDownload : Bool) (platform arch : String) : EntryAction :=
  if skipDownload then .skipExit
  else
    match resolveTarget platform arch with
    | none => .unsupportedWarnExit
    | some t => .proceed t

/-- Exit code decided by the prelude alone: `some 0` for both early
`process.exit(0)` paths, `none` when the run proceeds to `install()`. -/
def entryExitCode : EntryAction → Option Nat
  | .skipExit => some 0
  | .unsupportedWarnExit => some 0
  | .proceed _ => none

/-- Whether the prelude path reaches any network request: both early
exits happen before any URL is even constructed. -/
def entryIssuesNetwork : EntryAction → Bool
  | .skipExit => false
  | .unsupportedWarnExit => false
  | .proceed _ => true

/-- Whether the prelude prints the `codexline: unsupported platform`
warning. -/
def entryWarnsUnsupported : EntryAction → Bool
  | .skipExit => false
  | .unsupportedWarnExit => true
  | .proceed _ => false

/-- `Number.parseInt(s, 10)`: skip leading whitespace, read an optional
sign and then the longest prefix of decimal digits; no digits means
`NaN`, embedded as `none`. (The source's values are small enough that
IEEE rounding of very long digit strings is irrelevant; the embedding
is exact over the integers.) -/
def jsParseIntBase10 (s : String) : Option Int :=
  let cs := s.data.dropWhile isJsWhitespace
  let signed : Int × List Char :=
    match cs with
    | '-' :: rest => (-1, rest)
    | '+' :: rest => (1, rest)
    | _ => (1, cs)
  let digits := signed.2.takeWhile Char.isDigit
  if digits = [] then none
  else some (signed.1 * (digits.foldl (fun acc c => 10 * acc + (c.toNat - 48)) 0 : Nat))

/-- `readPositiveInt(value, fallback)`: parse `value || ""` in base 10;
a non-finite (`NaN`) or non-positive result yields the fallback.
`value` is the raw environment variable, `none` when unset. -/
def readPositiveInt (value : Option String) (fallback : Int) : Int :=
  match jsParseIntBase10 (value.getD "") with
  | none => fallback
  | some n => if n ≤ 0 then fallback else n

/-- `downloadRetries`: `readPositiveInt(process.env.CODEXLINE_DOWNLOAD_RETRIES, 3)`. -/
def downloadRetriesOf (env : Option String) : Int := readPositiveInt env 3

/-- `timeoutMs`: `readPositiveInt(process.env.CODEXLINE_DOWNLOAD_TIMEOUT_MS, 20000)`. -/
def timeoutMsOf (env : Option String) : Int := readPositiveInt env 20000

/-- The records of a manifest in line order: each line trimmed and
matched against the checksum-line pattern, non-matching (in particular
blank) lines dropped. -/
def checksumRecords (content : String) : List (String × String) :=
  (splitLines content).filterMap fun l => matchChecksumLine (jsTrim l)

/-- Whether a record's file name designates the asset: exact equality
or basename equality. -/
def recordMatches (assetName : String) (r : String × String) : Bool :=
  r.2 = assetName || basename r.2 = assetName

end Codexline

namespace Codexline

/-! ## Helper lemmas -/

theorem dropWhile_dropWhile (p : Char → Bool) (l : List Char) :
    (l.dropWhile p).dropWhile p = l.dropWhile p := by
  induction l with
  | nil => rfl
  | cons c cs ih =>
    by_cases h : p c
    · simp [List.dropWhile_cons, h, ih]
    · simp [List.dropWhile_cons, h]

theorem matchChecksumLine_empty : matchChecksumLine "" = none := rfl

/-- The scan of `parseChecksum` returns the digest of the first record,
in line order, whose file name designates the asset. -/
theorem parseChecksumLines_eq_find (assetName : String) (lines : List String) :
    parseChecksumLines lines assetName =
      ((lines.filterMap fun l => matchChecksumLine (jsTrim l)).find?
        (recordMatches assetName)).map Prod.fst := by
  induction lines with
  | nil => rfl
  | cons line rest ih =>
    have step : parseChecksumLines (line :: rest) assetName =
        (if jsTrim line = "" then parseChecksumLines rest assetName
         else
           match matchChecksumLine (jsTrim line) with
           | none => parseChecksumLines rest assetName
           | some (digest, fileName) =>
             if fileName = assetName || basename fileName = assetName then some digest
             else parseChecksumLines rest assetName) := rfl
    rw [step, List.filterMap_cons]
    by_cases hb : jsTrim line = ""
    · have hm : matchChecksumLine (jsTrim line) = none := by
        rw [hb]; exact matchChecksumLine_empty
      rw [if_pos hb, hm, ih]
    · rw [if_neg hb]
      cases hm : matchChecksumLine (jsTrim line) with
      | none => rw [ih]
      | some r =>
        obtain ⟨digest, fileName⟩ := r
        dsimp only
        rw [List.find?_cons]
        have hrm : recordMatches assetName (digest, fileName) =
            (fileName = assetName || basename fileName = assetName : Bool) := rfl
        cases hv : (fileName = assetName || basename fileName = assetName : Bool) with
        | true =>
          rw [hrm, hv]
          dsimp only
          simp [hv]
        | false =>
          rw [hrm, hv]
          dsimp only
          simp [hv, ih]

theorem withRetryGo_past {σ α : Type} (name : String) (attempts : Nat)
    (task : Nat → σ → Except String α × σ) (i : Nat) (last : Option String)
    (s : σ) (h : attempts < i) :
    withRetryGo name attempts task i last s =
      (.error (retryFailMsg name attempts last), s, []) := by
  rw [withRetryGo, if_pos h]

theorem withRetryGo_ok {σ α : Type} (name : String) (attempts : Nat)
    (task : Nat → σ → Except String α × σ) (i : Nat) (last : Option String)
    (s s1 : σ) (v : α) (hle : i ≤ attempts) (h : task i s = (.ok v, s1)) :
    withRetryGo name attempts task i last s = (.ok v, s1, [.call i]) := by
  rw [withRetryGo, if_neg (by omega), h]

theorem withRetryGo_err_mid {σ α : Type} (name : String) (attempts : Nat)
    (task : Nat → σ → Except String α × σ) (i : Nat) (last : Option String)
    (s s1 : σ) (e : String) (hlt : i < attempts) (h : task i s = (.error e, s1)) :
    withRetryGo name attempts task i last s =
      ((withRetryGo name attempts task (i + 1) (some e) s1).1,
        (withRetryGo name attempts task (i + 1) (some e) s1).2.1,
        .call i :: .warn (retryWarnMsg name attempts i e) :: .sleepMs (400 * i) ::
          (withRetryGo name attempts task (i + 1) (some e) s1).2.2) := by
  rw [withRetryGo, if_neg (by omega), h]
  dsimp only
  rw [if_pos hlt]

theorem withRetryGo_err_last {σ α : Type} (name : String) (attempts : Nat)
    (task : Nat → σ → Except String α × σ) (i : Nat) (last : Option String)
    (s s1 : σ) (e : String) (hi : i = attempts) (h : task i s = (.error e, s1)) :
    withRetryGo name attempts task i last s =
      (.error (retryFailMsg name attempts (some e)), s1, [.call i]) := by
  subst hi
  rw [withRetryGo, if_neg (by omega), h]
  dsimp only
  rw [if_neg (by omega)]

/-- When every attempt of a stateless task fails, the retry loop from
attempt `i` ends in the aggregate error built from the final attempt's
message, having invoked the task once per remaining attempt. -/
theorem withRetryGo_allFail {α : Type} (name : String) (attempts : Nat)
    (task : Nat → Except String α) (err : Nat → String)
    (h : ∀ j, task j = .error (err j)) :
    ∀ k i (last : Option String), attempts + 1 - i = k → 1 ≤ i → i ≤ attempts →
      (withRetryGo name attempts (fun j (_ : Unit) => (task j, ())) i last ()).1 =
          .error (retryFailMsg name attempts (some (err attempts))) ∧
      callCount
          (withRetryGo name attempts (fun j (_ : Unit) => (task j, ())) i last ()).2.2 =
        attempts + 1 - i := by
  intro k
  induction k with
  | zero => intro i last hk h1 h2; omega
  | succ k ih =>
    intro i last hk h1 h2
    by_cases hlt : i < attempts
    · rw [withRetryGo_err_mid name attempts _ i last () () (err i) hlt
        (by rw [h i])]
      have hrec := ih (i + 1) (some (err i)) (by omega) (by omega) (by omega)
      refine ⟨hrec.1, ?_⟩
      simp [callCount, List.countP_cons] at hrec ⊢
      omega
    · have hi : i = attempts := by omega
      rw [withRetryGo_err_last name attempts _ i last () () (err i) hi
        (by rw [h i])]
      have hone : callCount [RetryEvent.call i] = 1 := rfl
      exact ⟨by rw [hi], by rw [hone]; omega⟩

/-- Every sleep in a retry trace follows a failed, non-final attempt
`j` and lasts `400 * j` milliseconds. -/
theorem withRetryGo_sleep_mem {α : Type} (name : String) (attempts : Nat)
    (task : Nat → Except String α) :
    ∀ k i (last : Option String) (d : Nat), attempts + 1 - i = k →
      RetryEvent.sleepMs d ∈
        (withRetryGo name attempts (fun j (_ : Unit) => (task j, ())) i last ()).2.2 →
      ∃ j, d = 400 * j ∧ i ≤ j ∧ j < attempts ∧ ∃ e, task j = .error e := by
  intro k
  induction k with
  | zero =>
    intro i last d hk hmem
    rw [withRetryGo_past name attempts _ i last () (by omega)] at hmem
    simp at hmem
  | succ k ih =>
    intro i last d hk hmem
    by_cases hle : attempts < i
    · rw [withRetryGo_past name attempts _ i last () hle] at hmem
      simp at hmem
    · cases ht : task i with
      | ok v =>
        rw [withRetryGo_ok name attempts _ i last () () v (by omega)
          (by rw [ht])] at hmem
        simp at hmem
      | error e =>
        by_cases hlt : i < attempts
        · rw [withRetryGo_err_mid name attempts _ i last () () e hlt
            (by rw [ht])] at hmem
          simp only [List.mem_cons] at hmem
          rcases hmem with h1 | h1 | h1 | h1
        -- the three head events, then the tail
          · cases h1
          · cases h1
          · cases h1
            exact ⟨i, rfl, le_refl i, hlt, e, ht⟩
          · obtain ⟨j, hd, hij, hja, hje⟩ := ih (i + 1) (some e) d (by omega) h1
            exact ⟨j, hd, by omega, hja, hje⟩
        · rw [withRetryGo_err_last name attempts _ i last () () e (by omega)
            (by rw [ht])] at hmem
          simp at hmem

theorem char_le_iff (a b : Char) : a ≤ b ↔ a.toNat ≤ b.toNat := Iff.rfl

theorem toNat_ofNat_of_lt (n : Nat) (h : n < 55296) : (Char.ofNat n).toNat = n := by
  rw [Char.ofNat, dif_pos (Or.inl h)]
  rfl

theorem toLower_of_not_upper (c : Char) (h : ¬(65 ≤ c.toNat ∧ c.toNat ≤ 90)) :
    Char.toLower c = c := by
  rw [Char.toLower]
  exact if_neg h

theorem toLower_toNat_of_upper (c : Char) (h1 : 65 ≤ c.toNat) (h2 : c.toNat ≤ 90) :
    (Char.toLower c).toNat = c.toNat + 32 := by
  rw [Char.toLower]
  rw [if_pos ⟨h1, h2⟩]
  exact toNat_ofNat_of_lt _ (by omega)

/-- On a hex digit character, `hexVal` is determined by the lowercased
character. -/
theorem hexVal_eq_lower (c : Char) (hc : isHexDigitChar c = true) :
    hexVal c =
      if (Char.toLower c).toNat ≤ 57 then (Char.toLower c).toNat - 48
      else (Char.toLower c).toNat - 87 := by
  simp only [isHexDigitChar, Bool.or_eq_true, Bool.and_eq_true, decide_eq_true_eq,
    char_le_iff] at hc
  have e0 : ('0' : Char).toNat = 48 := rfl
  have e9 : ('9' : Char).toNat = 57 := rfl
  have ea : ('a' : Char).toNat = 97 := rfl
  have ef : ('f' : Char).toNat = 102 := rfl
  have eA : ('A' : Char).toNat = 65 := rfl
  have eF : ('F' : Char).toNat = 70 := rfl
  rw [e0, e9, ea, ef, eA, eF] at hc
  unfold hexVal
  rcases hc with (⟨h1, h2⟩ | ⟨h1, h2⟩) | ⟨h1, h2⟩
  · rw [if_pos ⟨(char_le_iff '0' c).mpr (by rw [e0]; omega),
        (char_le_iff c '9').mpr (by rw [e9]; omega)⟩]
    rw [toLower_of_not_upper c (by omega)]
    rw [if_pos (by omega)]
  · rw [if_neg (fun hcon => by
        have hb := (char_le_iff c '9').mp hcon.2; rw [e9] at hb; omega)]
    rw [if_pos ⟨(char_le_iff 'a' c).mpr (by rw [ea]; omega),
        (char_le_iff c 'f').mpr (by rw [ef]; omega)⟩]
    rw [toLower_of_not_upper c (by omega)]
    rw [if_neg (by omega)]
  · rw [if_neg (fun hcon => by
        have hb := (char_le_iff c '9').mp hcon.2; rw [e9] at hb; omega)]
    rw [if_neg (fun hcon => by
        have ha := (char_le_iff 'a' c).mp hcon.1; rw [ea] at ha; omega)]
    rw [if_pos ⟨(char_le_iff 'A' c).mpr (by rw [eA]; omega),
        (char_le_iff c 'F').mpr (by rw [eF]; omega)⟩]
    have hup := toLower_toNat_of_upper c (by omega) (by omega)
    rw [hup]
    rw [if_neg (by omega)]
    omega

/-- Two hex digit characters that agree after lowercasing denote the
same hex digit. -/
theorem hexVal_eq_of_toLower_eq (c c' : Char) (hc : isHexDigitChar c = true)
    (hc' : isHexDigitChar c' = true) (h : Char.toLower c = Char.toLower c') :
    hexVal c = hexVal c' := by
  rw [hexVal_eq_lower c hc, hexVal_eq_lower c' hc', h]

/-- Two strings whose characters at some position are hex digits with
different values stay different after lowercasing both strings. -/
theorem strToLower_ne_of_hexVal_ne (fd D : String) (i : Nat)
    (hif : i < fd.data.length) (hiD : i < D.data.length)
    (hhf : isHexDigitChar (fd.data.getD i ' ') = true)
    (hhD : isHexDigitChar (D.data.getD i ' ') = true)
    (hne : hexVal (fd.data.getD i ' ') ≠ hexVal (D.data.getD i ' ')) :
    strToLower fd ≠ strToLower D := by
  intro h
  have hdata : fd.data.map Char.toLower = D.data.map Char.toLower :=
    congrArg String.data h
  have h1 : (fd.data.map Char.toLower)[i]? = (D.data.map Char.toLower)[i]? := by
    rw [hdata]
  rw [List.getElem?_map, List.getElem?_map, List.getElem?_eq_getElem hif,
    List.getElem?_eq_getElem hiD] at h1
  have hg : Char.toLower (fd.data.getD i ' ') = Char.toLower (D.data.getD i ' ') := by
    rw [List.getD_eq_getElem?_getD, List.getD_eq_getElem?_getD,
      List.getElem?_eq_getElem hif, List.getElem?_eq_getElem hiD]
    simpa using h1
  exact hne (hexVal_eq_of_toLower_eq _ _ hhf hhD hg)

theorem withRetry_first_ok {α : Type} (name : String) (attempts : Nat)
    (task : Nat → Except String α) (v : α) (h : task 1 = .ok v) (ha : 1 ≤ attempts) :
    withRetry name attempts task = (.ok v, [.call 1]) := by
  unfold withRetry
  rw [withRetryGo_ok name attempts _ 1 none () () v ha (by simp only [h])]

theorem getResponse_redirect_exhausted (net : String → Except String Resp)
    (resolveUrl : String → String → String) (url : String) (res : Resp)
    (hnet : net url = .ok res) (h3 : 300 ≤ res.status) (h4 : res.status < 400)
    (hloc : locationTruthy res.location = true) :
    getResponse net resolveUrl url 0 =
      (.error ("too many redirects while fetching " ++ url), [url]) := by
  rw [getResponse, hnet]
  dsimp only
  rw [if_pos ⟨h3, h4, hloc⟩, if_pos rfl]

theorem getResponse_redirect_step (net : String → Except String Resp)
    (resolveUrl : String → String → String) (url : String) (res : Resp) (n : Nat)
    (hnet : net url = .ok res) (h3 : 300 ≤ res.status) (h4 : res.status < 400)
    (hloc : locationTruthy res.location = true) :
    getResponse net resolveUrl url (n + 1) =
      ((getResponse net resolveUrl (resolveUrl (res.location.getD "") url) n).1,
        url :: (getResponse net resolveUrl (resolveUrl (res.location.getD "") url) n).2) := by
  rw [getResponse, hnet]
  dsimp only
  rw [if_pos ⟨h3, h4, hloc⟩, if_neg (by omega)]
  norm_num

/-! ## Claim theorems -/

/-- C1: for every initial state of the final output path (absent or
present with prior content), if the source stream errors after any
number of bytes were written to the staging path — or the request
itself fails — then `downloadBinary` propagates the error, the final
output path is exactly as it was before the call, and no temp file
remains. -/
theorem C1_downloadBinary_stream_error_atomicity :
    ∀ (fs : FS) (partialBytes : List Nat) (streamErr reqErr : String),
      downloadBinary fs (.ok (.err partialBytes streamErr)) =
        (.error streamErr, ⟨fs.final, none⟩) ∧
      downloadBinary fs (.error reqErr) = (.error reqErr, ⟨fs.final, none⟩) := by
  intro fs partialBytes streamErr reqErr
  exact ⟨rfl, rfl⟩

/-- C2 counterexample: the claim says the binary URL is
`<base>/<version>/<assetName>` with one or many trailing slashes of the
base collapsing to a single inserted separator slash between base and
version; but with base `"https://example.com/r/"` and version `"1.2.3"`
the code removes the trailing slash entirely and inserts nothing, so
the produced URL lacks the claimed separator. -/
theorem C2_counterexample_no_separator_slash :
    binaryUrl "https://example.com/r/" "1.2.3" ⟨"codexline-linux-x64", "codexline"⟩ =
      "https://example.com/r1.2.3/codexline-linux-x64" ∧
    ("https://example.com/r1.2.3/codexline-linux-x64" : String) ≠
      "https://example.com/r/1.2.3/codexline-linux-x64" := by
  constructor
  · decide
  · decide

/-- C2 amended: the Release Locator produces exactly the binary URL
`trimTrailingSlash(base) ++ version ++ "/" ++ assetName` and the
manifest URL `trimTrailingSlash(base) ++ version ++ "/" ++
"codexline-checksums.txt"` (the manifest filename being the fixed name
codexline-checksums.txt); trailing slashes of the base are removed
entirely (one or many trailing slashes collapse to nothing — no
separator slash is inserted between base and version), the
normalization is idempotent, and the single inserted separator slash
stands between the version and the file name. -/
theorem C2_amended_release_urls :
    ∀ (baseUrl version : String) (t : Target),
      binaryUrl baseUrl version t =
        trimTrailingSlash baseUrl ++ version ++ "/" ++ t.assetName ∧
      checksumUrl baseUrl version =
        trimTrailingSlash baseUrl ++ version ++ "/" ++ "codexline-checksums.txt" ∧
      trimTrailingSlash (baseUrl ++ "/") = trimTrailingSlash baseUrl ∧
      trimTrailingSlash (trimTrailingSlash baseUrl) = trimTrailingSlash baseUrl := by
  intro baseUrl version t
  refine ⟨?_, ?_, ?_, ?_⟩
  · simp [binaryUrl, releaseBase, String.append_assoc]
  · simp [checksumUrl, releaseBase, manifestFileName, String.append_assoc]
  · simp [trimTrailingSlash, List.dropWhile_cons]
  · simp [trimTrailingSlash, dropWhile_dropWhile]

/-- C3: with a manifest whose record for the asset carries digest `D`,
verification succeeds when the installed file's SHA-256 hex digest
equals `D` under case-insensitive comparison, and fails with a mismatch
error naming both the expected and the actual digest whenever the
manifest digest differs from the file's digest in a single hex
character (a position where the hex digit values differ). -/
theorem C3_checksum_verification :
    (∀ (m A D fd : String) (retries : Nat) (req : Bool),
      1 ≤ retries → parseChecksum m A = some D → strToLower fd = strToLower D →
      verifyBinaryChecksum (fun _ => .ok m) retries A fd req = .ok []) ∧
    (∀ (m A D fd : String) (retries : Nat) (req : Bool),
      1 ≤ retries → parseChecksum m A = some D →
      fd.data.length = 64 → D.data.length = 64 →
      fd.data.all isHexDigitChar = true → D.data.all isHexDigitChar = true →
      (∃ i, i < 64 ∧ hexVal (fd.data.getD i ' ') ≠ hexVal (D.data.getD i ' ') ∧
        ∀ j, j < 64 → j ≠ i → fd.data.getD j ' ' = D.data.getD j ' ') →
      verifyBinaryChecksum (fun _ => .ok m) retries A fd req =
        .error ("checksum mismatch for " ++ A ++ ": expected " ++ D ++ ", got " ++ fd)) := by
  constructor
  · intro m A D fd retries req hr hD hfd
    have hw := withRetry_first_ok "checksum download" retries
      (fun _ => (.ok m : Except String String)) m rfl hr
    unfold verifyBinaryChecksum
    rw [hw]
    dsimp only
    rw [hD]
    dsimp only
    rw [if_neg (fun hcon => hcon hfd)]
  · intro m A D fd retries req hr hD hlf hlD haf haD hdiff
    obtain ⟨i, hi, hne, _hrest⟩ := hdiff
    have hif : i < fd.data.length := by omega
    have hiD : i < D.data.length := by omega
    have hgf : fd.data.getD i ' ' = fd.data.get ⟨i, hif⟩ := by
      rw [List.getD_eq_getElem?_getD, List.getElem?_eq_getElem hif]
      rfl
    have hgD : D.data.getD i ' ' = D.data.get ⟨i, hiD⟩ := by
      rw [List.getD_eq_getElem?_getD, List.getElem?_eq_getElem hiD]
      rfl
    have hhf : isHexDigitChar (fd.data.getD i ' ') = true := by
      rw [hgf]
      exact List.all_eq_true.mp haf _ (List.get_mem _ _ _)
    have hhD : isHexDigitChar (D.data.getD i ' ') = true := by
      rw [hgD]
      exact List.all_eq_true.mp haD _ (List.get_mem _ _ _)
    have hneq := strToLower_ne_of_hexVal_ne fd D i hif hiD hhf hhD hne
    have hw := withRetry_first_ok "checksum download" retries
      (fun _ => (.ok m : Except String String)) m rfl hr
    unfold verifyBinaryChecksum
    rw [hw]
    dsimp only
    rw [hD]
    dsimp only
    rw [if_pos hneq]

/-- C3 witness: the theorem applied to a concrete one-line manifest,
once with a digest agreeing up to case and once with a digest whose
first hex digit differs. -/
theorem C3_witness :
    verifyBinaryChecksum
        (fun _ => .ok "AAAAAAAAAAAAAAAAAAAAAAAAAAAAAAAAAAAAAAAAAAAAAAAAAAAAAAAAAAAAAAAA  asset.bin") 1 "asset.bin"
        "aaaaaaaaaaaaaaaaaaaaaaaaaaaaaaaaaaaaaaaaaaaaaaaaaaaaaaaaaaaaaaaa" true =
      .ok [] ∧
    verifyBinaryChecksum
        (fun _ => .ok "aaaaaaaaaaaaaaaaaaaaaaaaaaaaaaaaaaaaaaaaaaaaaaaaaaaaaaaaaaaaaaaa  asset.bin") 1 "asset.bin"
        "baaaaaaaaaaaaaaaaaaaaaaaaaaaaaaaaaaaaaaaaaaaaaaaaaaaaaaaaaaaaaaa" true =
      .error ("checksum mismatch for " ++ "asset.bin" ++ ": expected " ++
        "aaaaaaaaaaaaaaaaaaaaaaaaaaaaaaaaaaaaaaaaaaaaaaaaaaaaaaaaaaaaaaaa" ++ ", got " ++ "baaaaaaaaaaaaaaaaaaaaaaaaaaaaaaaaaaaaaaaaaaaaaaaaaaaaaaaaaaaaaaa") := by
  constructor
  · exact C3_checksum_verification.1
      "AAAAAAAAAAAAAAAAAAAAAAAAAAAAAAAAAAAAAAAAAAAAAAAAAAAAAAAAAAAAAAAA  asset.bin" "asset.bin"
      "AAAAAAAAAAAAAAAAAAAAAAAAAAAAAAAAAAAAAAAAAAAAAAAAAAAAAAAAAAAAAAAA" "aaaaaaaaaaaaaaaaaaaaaaaaaaaaaaaaaaaaaaaaaaaaaaaaaaaaaaaaaaaaaaaa" 1 true (by decide) (by decide) (by decide)
  · exact C3_checksum_verification.2
      "aaaaaaaaaaaaaaaaaaaaaaaaaaaaaaaaaaaaaaaaaaaaaaaaaaaaaaaaaaaaaaaa  asset.bin" "asset.bin"
      "aaaaaaaaaaaaaaaaaaaaaaaaaaaaaaaaaaaaaaaaaaaaaaaaaaaaaaaaaaaaaaaa" "baaaaaaaaaaaaaaaaaaaaaaaaaaaaaaaaaaaaaaaaaaaaaaaaaaaaaaaaaaaaaaa" 1 true (by decide) (by decide) (by decide)
      (by decide) (by decide) (by decide)
      ⟨0, by decide, by decide, by decide⟩

/-- C4: `parseChecksum` scans lines in order, skipping blank lines and
lines not matching the pattern (64 hex characters, whitespace, optional
leading asterisk, filename), and returns the digest of the first
matching line whose filename equals the asset name exactly or whose
basename does, stopping at that first match; the asterisk is stripped
and never matched as part of the filename, so the line
`<64 hex chars> *subdir/A` matches asset name `A` via basename
comparison. -/
theorem C4_parseChecksum_scan :
    (∀ content assetName : String,
      parseChecksum content assetName =
        ((checksumRecords content).find? (recordMatches assetName)).map Prod.fst) ∧
    matchChecksumLine
        "aaaaaaaaaaaaaaaaaaaaaaaaaaaaaaaaaaaaaaaaaaaaaaaaaaaaaaaaaaaaaaaa *subdir/A" =
      some ("aaaaaaaaaaaaaaaaaaaaaaaaaaaaaaaaaaaaaaaaaaaaaaaaaaaaaaaaaaaaaaaa",
        "subdir/A") ∧
    parseChecksum
        "aaaaaaaaaaaaaaaaaaaaaaaaaaaaaaaaaaaaaaaaaaaaaaaaaaaaaaaaaaaaaaaa *subdir/A"
        "A" =
      some "aaaaaaaaaaaaaaaaaaaaaaaaaaaaaaaaaaaaaaaaaaaaaaaaaaaaaaaaaaaaaaaa" := by
  refine ⟨?_, by decide, by decide⟩
  intro content assetName
  exact parseChecksumLines_eq_find assetName (splitLines content)

/-- C5: for every positive attempt budget and every task failing on all
invocations, `withRetry` invokes the task exactly `attempts` times and
fails with an aggregate error naming the operation, the attempt count,
and the last underlying error's message. -/
theorem C5_withRetry_exhaustion {α : Type} :
    ∀ (name : String) (attempts : Nat) (task : Nat → Except String α)
      (err : Nat → String),
      0 < attempts → (∀ j, task j = .error (err j)) →
      (withRetry name attempts task).1 =
        .error (name ++ " failed after " ++ toString attempts ++ " attempts: " ++
          err attempts) ∧
      callCount (withRetry name attempts task).2 = attempts := by
  intro name attempts task err hpos h
  have hgo := withRetryGo_allFail name attempts task err h (attempts + 1 - 1) 1 none
    rfl (le_refl 1) hpos
  unfold withRetry
  dsimp only
  refine ⟨hgo.1, ?_⟩
  rw [hgo.2]
  omega

/-- C5 witness: the theorem applied to attempt budget 2 and the task
failing every time with "boom". -/
theorem C5_witness :
    (withRetry "op" 2 (fun _ => (.error "boom" : Except String Nat))).1 =
      .error "op failed after 2 attempts: boom" ∧
    callCount (withRetry "op" 2 (fun _ => (.error "boom" : Except String Nat))).2 = 2 := by
  have h := C5_withRetry_exhaustion "op" 2
    (fun _ => (.error "boom" : Except String Nat)) (fun _ => "boom")
    (by decide) (fun _ => rfl)
  exact ⟨h.1, h.2⟩

/-- C6: `withRetry` sleeps only after a failed attempt that is not the
final one, the delay for (1-indexed) attempt `i` being the base delay
of 400 ms times `i` — linear, not exponential; in particular with
`attempts = 3` and a task failing twice then succeeding, it returns the
success value, sleeps exactly twice, and the second sleep is twice the
first. -/
theorem C6_withRetry_linear_backoff {α : Type} :
    (∀ (name : String) (task : Nat → Except String α) (e1 e2 : String) (v : α),
      task 1 = .error e1 → task 2 = .error e2 → task 3 = .ok v →
      withRetry name 3 task =
        (.ok v,
          [.call 1, .warn (retryWarnMsg name 3 1 e1), .sleepMs (400 * 1),
            .call 2, .warn (retryWarnMsg name 3 2 e2), .sleepMs (400 * 2),
            .call 3]) ∧
      sleepList (withRetry name 3 task).2 = [400 * 1, 400 * 2] ∧
      400 * 2 = 2 * (400 * 1)) ∧
    (∀ (name : String) (attempts : Nat) (task : Nat → Except String α) (d : Nat),
      RetryEvent.sleepMs d ∈ (withRetry name attempts task).2 →
      ∃ i, d = 400 * i ∧ 1 ≤ i ∧ i < attempts ∧ ∃ e, task i = .error e) := by
  constructor
  · intro name task e1 e2 v h1 h2 h3
    have g3 : withRetryGo name 3 (fun j (_ : Unit) => (task j, ())) 3 (some e2) () =
        (.ok v, (), [.call 3]) :=
      withRetryGo_ok name 3 _ 3 (some e2) () () v (by omega) (by simp only [h3])
    have g2 := withRetryGo_err_mid name 3 (fun j (_ : Unit) => (task j, ())) 2
      (some e1) () () e2 (by omega) (by simp only [h2])
    rw [g3] at g2
    have g1 := withRetryGo_err_mid name 3 (fun j (_ : Unit) => (task j, ())) 1
      none () () e1 (by omega) (by simp only [h1])
    rw [g2] at g1
    have hw : withRetry name 3 task =
        (.ok v,
          [.call 1, .warn (retryWarnMsg name 3 1 e1), .sleepMs (400 * 1),
            .call 2, .warn (retryWarnMsg name 3 2 e2), .sleepMs (400 * 2),
            .call 3]) := by
      unfold withRetry
      rw [g1]
    refine ⟨hw, ?_, by norm_num⟩
    rw [hw]
    rfl
  · intro name attempts task d hmem
    unfold withRetry at hmem
    dsimp only at hmem
    exact withRetryGo_sleep_mem name attempts task (attempts + 1 - 1) 1 none d rfl hmem

/-- C6 witness: the theorem applied to a concrete task failing twice
with "e1", "e2" then succeeding with 7, and to one of its sleeps. -/
theorem C6_witness :
    withRetry "op" 3
        (fun i => if i = 1 then (.error "e1" : Except String Nat)
          else if i = 2 then .error "e2" else .ok 7) =
      (.ok 7,
        [.call 1, .warn (retryWarnMsg "op" 3 1 "e1"), .sleepMs (400 * 1),
          .call 2, .warn (retryWarnMsg "op" 3 2 "e2"), .sleepMs (400 * 2),
          .call 3]) := by
  exact (C6_withRetry_linear_backoff.1 "op"
    (fun i => if i = 1 then (.error "e1" : Except String Nat)
      else if i = 2 then .error "e2" else .ok 7) "e1" "e2" 7 rfl rfl rfl).1

/-- C7: on a response with status in [300,400) carrying a (truthy)
location header, the fetcher fails with "too many redirects" when the
redirect budget is exhausted, and otherwise resolves the location
against the current URL and retries with the budget decremented; hence
a chain of redirecting URLs visited with budget 5 fails with "too many
redirects" after following exactly 5 hops (six URLs requested). -/
theorem C7_getResponse_redirects :
    (∀ (net : String → Except String Resp) (resolveUrl : String → String → String)
      (url : String) (res : Resp),
      net url = .ok res → 300 ≤ res.status → res.status < 400 →
      locationTruthy res.location = true →
      getResponse net resolveUrl url 0 =
        (.error ("too many redirects while fetching " ++ url), [url]) ∧
      (∀ n : Nat, getResponse net resolveUrl url (n + 1) =
        ((getResponse net resolveUrl (resolveUrl (res.location.getD "") url) n).1,
          url :: (getResponse net resolveUrl (resolveUrl (res.location.getD "") url) n).2))) ∧
    (∀ (net : String → Except String Resp) (resolveUrl : String → String → String)
      (u loc : Nat → String),
      (∀ k, k ≤ 5 → net (u k) = .ok ⟨302, some (loc k)⟩) →
      (∀ k, k ≤ 5 → loc k ≠ "") →
      (∀ k, k ≤ 5 → resolveUrl (loc k) (u k) = u (k + 1)) →
      getResponse net resolveUrl (u 0) 5 =
        (.error ("too many redirects while fetching " ++ u 5),
          [u 0, u 1, u 2, u 3, u 4, u 5])) := by
  constructor
  · intro net resolveUrl url res hnet h3 h4 hloc
    exact ⟨getResponse_redirect_exhausted net resolveUrl url res hnet h3 h4 hloc,
      fun n => getResponse_redirect_step net resolveUrl url res n hnet h3 h4 hloc⟩
  · intro net resolveUrl u loc hnet hne hstep
    have hres : ∀ k, k ≤ 5 →
        locationTruthy ((⟨302, some (loc k)⟩ : Resp).location) = true := by
      intro k hk
      simp [locationTruthy, hne k hk]
    have s5 := getResponse_redirect_exhausted net resolveUrl (u 5)
      ⟨302, some (loc 5)⟩ (hnet 5 (by norm_num)) (by norm_num) (by norm_num)
      (hres 5 (by norm_num))
    have s4 := getResponse_redirect_step net resolveUrl (u 4)
      ⟨302, some (loc 4)⟩ 0 (hnet 4 (by norm_num)) (by norm_num) (by norm_num)
      (hres 4 (by norm_num))
    simp only [Option.getD_some] at s4
    rw [hstep 4 (by norm_num), s5] at s4
    have s3 := getResponse_redirect_step net resolveUrl (u 3)
      ⟨302, some (loc 3)⟩ 1 (hnet 3 (by norm_num)) (by norm_num) (by norm_num)
      (hres 3 (by norm_num))
    simp only [Option.getD_some] at s3
    rw [hstep 3 (by norm_num), s4] at s3
    have s2 := getResponse_redirect_step net resolveUrl (u 2)
      ⟨302, some (loc 2)⟩ 2 (hnet 2 (by norm_num)) (by norm_num) (by norm_num)
      (hres 2 (by norm_num))
    simp only [Option.getD_some] at s2
    rw [hstep 2 (by norm_num), s3] at s2
    have s1 := getResponse_redirect_step net resolveUrl (u 1)
      ⟨302, some (loc 1)⟩ 3 (hnet 1 (by norm_num)) (by norm_num) (by norm_num)
      (hres 1 (by norm_num))
    simp only [Option.getD_some] at s1
    rw [hstep 1 (by norm_num), s2] at s1
    have s0 := getResponse_redirect_step net resolveUrl (u 0)
      ⟨302, some (loc 0)⟩ 4 (hnet 0 (by norm_num)) (by norm_num) (by norm_num)
      (hres 0 (by norm_num))
    simp only [Option.getD_some] at s0
    rw [hstep 0 (by norm_num), s1] at s0
    exact s0

/-- C7 witness: the theorem's chain clause applied to a concrete
six-URL redirect chain. -/
theorem C7_witness :
    getResponse
        (fun url => .ok ⟨302, some (url ++ "x")⟩)
        (fun l _ => l)
        "a" 5 =
      (.error ("too many redirects while fetching " ++ "axxxxx"),
        ["a", "ax", "axx", "axxx", "axxxx", "axxxxx"]) := by
  have h := C7_getResponse_redirects.2
    (fun url => .ok ⟨302, some (url ++ "x")⟩)
    (fun l _ => l)
    (fun k => "a" ++ ⟨List.replicate k 'x'⟩)
    (fun k => "a" ++ ⟨List.replicate k 'x'⟩ ++ "x")
    (fun k _ => rfl)
    (fun k _ => by
      intro h
      have hlen := congrArg String.length h
      simp at hlen
      exact (by decide : ¬"x".length = 0) hlen.2)
    (fun k _ => by
      show ("a" ++ ⟨List.replicate k 'x'⟩ ++ "x" : String) = "a" ++ ⟨List.replicate (k + 1) 'x'⟩
      refine congrArg String.mk ?_
      simp [List.replicate_succ'])
  simpa using h

/-- C8: when checksum verification is enabled and the manifest fetch
fails on every attempt of its retry budget: with require-checksum set
the install fails — exit code 1, the output path removed (absent), and
the error message citing "checksum file unavailable"; with
require-checksum off, a warning is recorded and verification is skipped,
the run succeeding. -/
theorem C8_manifest_fetch_failure_paths :
    ∀ (fs0 : FS) (w : Bool) (retries : Nat) (bytes : List Nat)
      (binStreams : Nat → Except String StreamResult)
      (checksumFetch : Nat → Except String String) (err : Nat → String)
      (A fd : String),
      1 ≤ retries → binStreams 1 = .ok (.ok bytes) →
      (∀ j, checksumFetch j = .error (err j)) →
      runInstall fs0 w retries binStreams true checksumFetch A fd true =
        ⟨1, ⟨none, none⟩,
          some ("checksum file unavailable: " ++
            retryFailMsg "checksum download" retries (some (err retries))), [], false⟩ ∧
      runInstall fs0 w retries binStreams true checksumFetch A fd false =
        ⟨0, ⟨some bytes, none⟩, none,
          ["codexline: checksum skipped (" ++
            retryFailMsg "checksum download" retries (some (err retries)) ++ ")"],
          !w⟩ := by
  intro fs0 w retries bytes binStreams checksumFetch err A fd hr hbin hfetch
  have hdl : withRetryGo "binary download" retries
      (fun i fs => downloadBinary fs (binStreams i)) 1 none fs0 =
      (.ok (), ⟨some bytes, none⟩, [.call 1]) := by
    apply withRetryGo_ok _ retries _ 1 none fs0 ⟨some bytes, none⟩ () hr
    show downloadBinary fs0 (binStreams 1) = (.ok (), ⟨some bytes, none⟩)
    rw [hbin]
    rfl
  have hver : (withRetry "checksum download" retries checksumFetch).1 =
      .error (retryFailMsg "checksum download" retries (some (err retries))) := by
    have hall := withRetryGo_allFail "checksum download" retries checksumFetch err
      hfetch (retries + 1 - 1) 1 none rfl (le_refl 1) hr
    unfold withRetry
    dsimp only
    exact hall.1
  have hvT : verifyBinaryChecksum checksumFetch retries A fd true =
      .error ("checksum file unavailable: " ++
        retryFailMsg "checksum download" retries (some (err retries))) := by
    unfold verifyBinaryChecksum
    rw [hver]
    rfl
  have hvF : verifyBinaryChecksum checksumFetch retries A fd false =
      .ok ["codexline: checksum skipped (" ++
        retryFailMsg "checksum download" retries (some (err retries)) ++ ")"] := by
    unfold verifyBinaryChecksum
    rw [hver]
    rfl
  constructor
  · simp only [runInstall, hdl, hvT]
    rfl
  · simp only [runInstall, hdl, hvF]
    rfl

/-- C8 witness: the theorem applied to a concrete run whose binary
download succeeds at once and whose manifest fetch always fails. -/
theorem C8_witness :
    runInstall ⟨some [9], some [7]⟩ false 3 (fun _ => .ok (.ok [1, 2, 3])) true
        (fun _ => .error "neterr") "asset.bin" "d" true =
      ⟨1, ⟨none, none⟩,
        some "checksum file unavailable: checksum download failed after 3 attempts: neterr",
        [], false⟩ ∧
    runInstall ⟨some [9], some [7]⟩ false 3 (fun _ => .ok (.ok [1, 2, 3])) true
        (fun _ => .error "neterr") "asset.bin" "d" false =
      ⟨0, ⟨some [1, 2, 3], none⟩, none,
        ["codexline: checksum skipped (checksum download failed after 3 attempts: neterr)"],
        true⟩ := by
  have h := C8_manifest_fetch_failure_paths ⟨some [9], some [7]⟩ false 3 [1, 2, 3]
    (fun _ => .ok (.ok [1, 2, 3])) (fun _ => .error "neterr") (fun _ => "neterr")
    "asset.bin" "d" (by decide) rfl (fun _ => rfl)
  exact ⟨h.1, h.2⟩

/-- C9: the Target Resolver returns a non-null Target for exactly the
five supported (platform, architecture) pairs and `none` for every
other pair; on an unsupported pair the orchestrator takes the
warn-and-exit path, which exits with code 0 and issues no network
request — it is not a failure. -/
theorem C9_resolveTarget_support :
    (∀ platform arch : String,
      (resolveTarget platform arch).isSome ↔
        ((platform, arch) = ("win32", "x64") ∨ (platform, arch) = ("linux", "x64") ∨
          (platform, arch) = ("linux", "arm64") ∨ (platform, arch) = ("darwin", "x64") ∨
          (platform, arch) = ("darwin", "arm64"))) ∧
    (∀ platform arch : String, resolveTarget platform arch = none →
      entryDecision false platform arch = .unsupportedWarnExit) ∧
    entryExitCode .unsupportedWarnExit = some 0 ∧
    entryIssuesNetwork .unsupportedWarnExit = false ∧
    entryWarnsUnsupported .unsupportedWarnExit = true := by
  refine ⟨?_, ?_, rfl, rfl, rfl⟩
  · intro platform arch
    unfold resolveTarget
    split_ifs <;> simp_all [Prod.ext_iff]
  · intro platform arch h
    simp [entryDecision, h]

/-- C9 witness: the theorem applied at the unsupported pair
(freebsd, x64) and at the supported pair (linux, arm64). -/
theorem C9_witness :
    entryDecision false "freebsd" "x64" = .unsupportedWarnExit ∧
    (resolveTarget "linux" "arm64").isSome = true := by
  constructor
  · exact C9_resolveTarget_support.2.1 "freebsd" "x64" (by decide)
  · exact (C9_resolveTarget_support.1 "linux" "arm64").mpr (by decide)

/-- C10: for every raw environment value for download-retries or
download-timeout-ms, the configured value is always positive: a raw
string that parses in base 10 to an integer greater than zero is used
as-is, and every other input (missing, non-numeric, zero, negative)
silently yields the stated default (3 retries, 20000 ms). -/
theorem C10_readPositiveInt_config :
    ∀ value : Option String,
      (0 < downloadRetriesOf value ∧ 0 < timeoutMsOf value) ∧
      (∀ n : Int, jsParseIntBase10 (value.getD "") = some n → 0 < n →
        downloadRetriesOf value = n ∧ timeoutMsOf value = n) ∧
      ((jsParseIntBase10 (value.getD "") = none ∨
          ∃ n : Int, jsParseIntBase10 (value.getD "") = some n ∧ n ≤ 0) →
        downloadRetriesOf value = 3 ∧ timeoutMsOf value = 20000) := by
  intro value
  refine ⟨?_, ?_, ?_⟩
  · unfold downloadRetriesOf timeoutMsOf readPositiveInt
    rcases h : jsParseIntBase10 (value.getD "") with _ | n
    · exact ⟨by norm_num, by norm_num⟩
    · constructor <;> · simp only []; split_ifs with hn <;> omega
  · intro n h hn
    unfold downloadRetriesOf timeoutMsOf readPositiveInt
    rw [h]
    constructor <;> · dsimp only; split_ifs with hle <;> omega
  · intro h
    unfold downloadRetriesOf timeoutMsOf readPositiveInt
    rcases h with h | ⟨n, h, hn⟩
    · rw [h]; exact ⟨rfl, rfl⟩
    · rw [h]
      constructor <;> · dsimp only; split_ifs with hle <;> omega

/-- C10 witness: the theorem applied at the non-numeric value "abc",
the valid value "5", and the missing value. -/
theorem C10_witness :
    downloadRetriesOf (some "abc") = 3 ∧ timeoutMsOf (some "abc") = 20000 ∧
    downloadRetriesOf (some "5") = 5 ∧
    downloadRetriesOf none = 3 ∧ 0 < timeoutMsOf none := by
  refine ⟨?_, ?_, ?_, ?_, ?_⟩
  · exact ((C10_readPositiveInt_config (some "abc")).2.2 (Or.inl (by decide))).1
  · exact ((C10_readPositiveInt_config (some "abc")).2.2 (Or.inl (by decide))).2
  · exact ((C10_readPositiveInt_config (some "5")).2.1 5 (by decide) (by decide)).1
  · exact ((C10_readPositiveInt_config none).2.2 (Or.inl (by decide))).1
  · exact (C10_readPositiveInt_config none).1.2

end Codexline
